import Mathlib

/-!
Shallow embedding of `src/main_file.js`, a client-side file-storage utility over
a browser-local IndexedDB database (`indra_files_db`, object store `files`).

The object store is keyed by `id` with `autoIncrement: true`: the key generator
starts at 1, grows by 1 on every successful `add`, is never reset by `clear`,
and `getAll` returns records in ascending key order — which, as keys only ever
grow, is insertion order.  We model the store as the list of its records in key
order together with the key generator, and each storage operation
(`addFileEntry`, `listAllFiles`, `getFileById`, `deleteFileById`, `clearAll`,
lines 21–75 of the source) as a pure state-passing function.  Transaction-level
failures of the underlying engine are injected by oracles at the points where
the source `await`s a request, so that the UI handlers (lines 113–196) can be
modelled with their exact alert / button / re-render behaviour on both the
success and the failure path.
-/

/-- A user-selected file as the upload controller receives it: the fields of
the browser `File` object that the source reads (`file.name`, `file.type`,
`file.size`); the raw bytes never influence control flow, so they are not
modelled beyond the object's identity. -/
structure File where
  name : String
  type : String
  size : Nat
deriving Repr, DecidableEq, Inhabited

/-- A persisted record: the entry built at line 26,
`{ name: file.name, type: file.type, size: file.size, added: Date.now(), blob: file }`,
with `id` filled in by the store's auto-increment key generator. -/
structure FileRecord where
  id : Nat
  name : String
  type : String
  size : Nat
  added : Nat
  blob : File
deriving Repr, DecidableEq, Inhabited

/-- State of the object store `files`: records in ascending key order plus the
auto-increment key generator (next key to be assigned). -/
structure Store where
  records : List FileRecord
  nextId : Nat
deriving Repr, DecidableEq, Inhabited

/-- A freshly created (or upgraded) database: empty store, key generator at 1. -/
def Store.empty : Store := ⟨[], 1⟩

/-- Invariant maintained by the keyed store: record keys strictly increase along
the store order (in particular they are pairwise distinct).  Every state
reachable from `Store.empty` through the operations below satisfies it. -/
def Store.WF (s : Store) : Prop :=
  s.records.Pairwise (fun a b => a.id < b.id)

/-- A JavaScript value used as an id argument: the per-row handlers pass the
numeric `item.id`, while console callers may pass a string. -/
inductive JsVal where
  | num (n : Nat)
  | str (s : String)
deriving Repr, DecidableEq

/-- Decimal reading of a character list: `acc` accumulates the digits read so
far; a non-digit character makes the whole string coerce to no key. -/
def decDigitsAux : List Char → Nat → Option Nat
  | [], acc => some acc
  | c :: cs, acc =>
    if c.isDigit then decDigitsAux cs (acc * 10 + (c.toNat - '0'.toNat))
    else none

/-- `Number(s)` for a string, restricted to the plain decimal numerals that
integer ids stringify to; any other string is mapped to `none` (a key that
matches no stored record). -/
def jsStrToNumber (s : String) : Option Nat :=
  match s.data with
  | [] => none
  | c :: cs => decDigitsAux (c :: cs) 0

/-- The `Number(id)` coercion applied by `getFileById` / `deleteFileById`
(lines 49 and 60) before the key is used. -/
def jsToNumber : JsVal → Option Nat
  | .num n => some n
  | .str s => jsStrToNumber s

/-- The record `addFileEntry` builds from a file at line 26, given the key the
generator assigns and the `Date.now()` timestamp. -/
def mkEntry (id : Nat) (f : File) (now : Nat) : FileRecord :=
  ⟨id, f.name, f.type, f.size, now, f⟩

/-- `addFileEntry(file)` (lines 21–31): `store.add(entry)` assigns the next
auto-increment key, appends the entry (its key is the largest), advances the
generator, and resolves with the new key (`rq.result`). -/
def addFileEntry (f : File) (now : Nat) (s : Store) : Nat × Store :=
  (s.nextId, ⟨s.records ++ [mkEntry s.nextId f now], s.nextId + 1⟩)

/-- `listAllFiles()` (lines 33–42): `store.getAll()`, all records in ascending
key order. -/
def listAllFiles (s : Store) : List FileRecord :=
  s.records

/-- `getFileById(id)` (lines 44–53): `store.get(Number(id))`, a point lookup
resolving with the matching record or with `undefined` (here `none`). -/
def getFileById (id : JsVal) (s : Store) : Option FileRecord :=
  match jsToNumber id with
  | some k => s.records.find? (fun r => r.id == k)
  | none => none

/-- `deleteFileById(id)` (lines 55–64): `store.delete(Number(id))`, removing
the record with that key if present.  A keyed store holds at most one record
per key, so removing the first match is removing the match; the request
succeeds (resolves) whether or not a record was present, which the model
reflects by being total. -/
def deleteFileById (id : JsVal) (s : Store) : Store :=
  match jsToNumber id with
  | some k => ⟨s.records.eraseP (fun r => r.id == k), s.nextId⟩
  | none => s

/-- `clearAll()` (lines 66–75): `store.clear()` removes every record; the key
generator is not reset. -/
def clearAll (s : Store) : Store :=
  ⟨[], s.nextId⟩

/-- `(x).toFixed(1)` for the exact dyadic rational `n / 2^k` (`0 < k`).  The
divisions in `humanSize` are by 2^10, 2^20, 2^30, so for every integer byte
count representable as a JS number the quotient is exact in double precision,
and `toFixed(1)` renders the nearest multiple of 1/10, ties rounded up. -/
def toFixed1Pow2 (n k : Nat) : String :=
  let m := (10 * n + 2 ^ (k - 1)) / 2 ^ k
  toString (m / 10) ++ "." ++ toString (m % 10)

/-- `humanSize(n)` (lines 84–89): bytes below 1024 (integral), otherwise
KB / MB / GB below the successive powers of 1024, each to one decimal place. -/
def humanSize (n : Nat) : String :=
  if n < 1024 then toString n ++ " B"
  else if n < 1024 * 1024 then toFixed1Pow2 n 10 ++ " KB"
  else if n < 1024 * 1024 * 1024 then toFixed1Pow2 n 20 ++ " MB"
  else toFixed1Pow2 n 30 ++ " GB"

/-- The comparator at line 159, `(a,b) => b.added - a.added`: `a` sorts before
`b` exactly when `b.added ≤ a.added`, i.e. descending by `added`. -/
def newerFirst (a b : FileRecord) : Prop :=
  b.added ≤ a.added

instance : DecidableRel newerFirst := fun a b => Nat.decLe b.added a.added

/-- `all.sort((a,b)=>b.added-a.added)` (line 159): a stable comparator sort,
descending by `added`; ties keep the underlying storage order. -/
def sortNewestFirst (l : List FileRecord) : List FileRecord :=
  l.insertionSort newerFirst

/-- What `renderList` (lines 148–163) leaves in the list container: the empty
placeholder note when the collection is empty, otherwise one row per record,
newest first. -/
inductive Rendered where
  | emptyNote
  | rows (items : List FileRecord)
deriving Repr, DecidableEq

/-- The data-level content of `renderList()` on the success path: fetch all
records, placeholder if none, else sort newest first and draw every row. -/
def renderList (s : Store) : Rendered :=
  if (listAllFiles s).isEmpty then .emptyNote
  else .rows (sortNewestFirst (listAllFiles s))

/-- Sequential upload of files (each paired with its `Date.now()` value)
when no persistence failure occurs: the loop at lines 172–176. -/
def addAll (fs : List (File × Nat)) (s : Store) : Store :=
  match fs with
  | [] => s
  | f :: rest => addAll rest (addFileEntry f.1 f.2 s).2

/-- The upload loop (lines 172–176) under a failure oracle: `oracle i` is the
error message when persisting the `i`-th file rejects (the entry is then not
stored), `none` when the `add` succeeds.  Returns the resulting store, the
first error thrown (the `for` loop stops there), and how many `add` requests
were issued. -/
def uploadSeq (oracle : Nat → Option String) : Nat → List (File × Nat) → Store →
    Store × Option String × Nat
  | _, [], s => (s, none, 0)
  | i, f :: rest, s =>
    match oracle i with
    | some msg => (s, some msg, 1)
    | none =>
      let r := uploadSeq oracle (i + 1) rest (addFileEntry f.1 f.2 s).2
      (r.1, r.2.1, r.2.2 + 1)

/-- Observable outcome of one run of the upload click handler. -/
structure UploadRun where
  store : Store
  /-- alert messages shown, in order -/
  alerts : List String
  /-- successive values assigned to `uploadBtn.disabled` -/
  btnWrites : List Bool
  /-- whether `fileInput.value = ''` was reached -/
  inputCleared : Bool
  /-- whether the final `renderList()` completed -/
  rendered : Bool
deriving Repr, DecidableEq

/-- The `uploadBtn` click handler (lines 165–186).  Empty selection: alert and
return before the button is touched.  Otherwise the button is disabled, the
files are persisted in sequence inside `try`; a rejection (from an `add`, or
from the final `renderList`, whose failure `renderFail` injects) is caught and
alerted as `'Upload failed: ' + err.message`; the `finally` block re-enables
the button in every outcome. -/
def uploadBtnClick (oracle : Nat → Option String) (renderFail : Option String)
    (files : List (File × Nat)) (s : Store) : UploadRun :=
  if files.isEmpty then
    { store := s, alerts := ["Select at least one file"], btnWrites := [],
      inputCleared := false, rendered := false }
  else
    match uploadSeq oracle 0 files s with
    | (s', some msg, _) =>
      { store := s', alerts := ["Upload failed: " ++ msg], btnWrites := [true, false],
        inputCleared := false, rendered := false }
    | (s', none, _) =>
      match renderFail with
      | some msg =>
        { store := s', alerts := ["Upload failed: " ++ msg], btnWrites := [true, false],
          inputCleared := true, rendered := false }
      | none =>
        { store := s', alerts := [], btnWrites := [true, false],
          inputCleared := true, rendered := true }

/-- Observable outcome of one run of a non-upload UI action (refresh, per-row
delete, clear-all): resulting store, alerts shown, and how many requests the
triggering handler issued to its storage operation. -/
structure ActionRun where
  store : Store
  alerts : List String
  attempts : Nat
deriving Repr, DecidableEq

/-- The `refreshBtn` click handler (line 188) is `renderList` itself; a failing
`getAll` (injected by `listFail`) rejects inside the `async` function with no
`catch` anywhere: the rejection is unhandled, no alert is shown, and the call
is not retried. -/
def refreshBtnClick (listFail : Option String) (s : Store) : ActionRun :=
  match listFail with
  | some _ => { store := s, alerts := [], attempts := 1 }
  | none => { store := s, alerts := [], attempts := 1 }

/-- The per-row Delete click handler (lines 134–138): a declined confirm is a
no-op; otherwise `deleteFileById` is awaited with no `try`/`catch`, so a
transaction failure (injected by `delFail`) leaves the handler as an unhandled
rejection — no alert, no retry, and `renderList` is never reached. -/
def delBtnClick (confirmed : Bool) (delFail : Option String) (id : Nat)
    (s : Store) : ActionRun :=
  if !confirmed then { store := s, alerts := [], attempts := 0 }
  else
    match delFail with
    | some _ => { store := s, alerts := [], attempts := 1 }
    | none => { store := deleteFileById (.num id) s, alerts := [], attempts := 1 }

/-- The `clearAllBtn` click handler (lines 189–193): declined confirm is a
no-op; otherwise `clearAll` is awaited with no `try`/`catch`, so a failure
(injected by `clearFail`) is an unhandled rejection — no alert, no retry. -/
def clearAllBtnClick (confirmed : Bool) (clearFail : Option String)
    (s : Store) : ActionRun :=
  if !confirmed then { store := s, alerts := [], attempts := 0 }
  else
    match clearFail with
    | some _ => { store := s, alerts := [], attempts := 1 }
    | none => { store := clearAll s, alerts := [], attempts := 1 }

/-! ### Helper lemmas about the store operations -/

instance (s : Store) : Decidable s.WF :=
  inferInstanceAs (Decidable (List.Pairwise (fun a b : FileRecord => a.id < b.id) s.records))

theorem addAll_records (fs : List (File × Nat)) (s : Store) :
    (addAll fs s).records =
      s.records ++ (List.enumFrom s.nextId fs).map (fun p => mkEntry p.1 p.2.1 p.2.2) := by
  induction fs generalizing s with
  | nil => simp [addAll]
  | cons f rest ih =>
    show (addAll rest (addFileEntry f.1 f.2 s).2).records = _
    rw [ih]
    simp [addFileEntry, List.enumFrom]

theorem enumFrom_map_snd {α β : Type _} (g : α → β) (n : Nat) (l : List α) :
    (List.enumFrom n l).map (fun p => g p.2) = l.map g := by
  induction l generalizing n with
  | nil => rfl
  | cons x xs ih => simp [List.enumFrom, ih]

theorem enumFrom_fst_le {α : Type _} (n : Nat) (l : List α) :
    ∀ p ∈ List.enumFrom n l, n ≤ p.1 := by
  induction l generalizing n with
  | nil => intro p hp; simp [List.enumFrom] at hp
  | cons x xs ih =>
    intro p hp
    rcases List.mem_cons.mp hp with h | h
    · subst h; exact Nat.le_refl n
    · exact Nat.le_of_succ_le (ih (n + 1) p h)

theorem enumFrom_pairwise_fst {α : Type _} (n : Nat) (l : List α) :
    (List.enumFrom n l).Pairwise (fun p q => p.1 < q.1) := by
  induction l generalizing n with
  | nil => exact List.Pairwise.nil
  | cons x xs ih =>
    exact List.Pairwise.cons
      (fun q hq => Nat.lt_of_lt_of_le (Nat.lt_succ_self n) (enumFrom_fst_le (n + 1) xs q hq))
      (ih (n + 1))

theorem eraseP_eq_filter_of_sorted (k : Nat) :
    ∀ l : List FileRecord, l.Pairwise (fun a b => a.id < b.id) →
      l.eraseP (fun r => r.id == k) = l.filter (fun r => r.id != k) := by
  intro l
  induction l with
  | nil => intro _; rfl
  | cons x xs ih =>
    intro h
    rcases List.pairwise_cons.mp h with ⟨hx, hxs⟩
    by_cases hk : x.id = k
    · rw [List.eraseP_cons_of_pos (by simp [hk]), List.filter_cons_of_neg (by simp [hk])]
      refine (List.filter_eq_self.mpr fun a ha => ?_).symm
      have : x.id < a.id := hx a ha
      simp only [bne_iff_ne, ne_eq]
      omega
    · rw [List.eraseP_cons_of_neg (by simp [hk]), List.filter_cons_of_pos (by simp [hk])]
      rw [ih hxs]

/-! ### C1–C4 -/

/-- C1: uploading valid files F1..Fn in sequence into an initially empty store
via `addFileEntry` makes a subsequent `listAllFiles()` return exactly n records
whose `name`, `type` and `size` match the corresponding inputs, with pairwise
distinct `id`s. -/
theorem upload_sequence_spec (fs : List (File × Nat)) :
    (listAllFiles (addAll fs Store.empty)).length = fs.length ∧
    (listAllFiles (addAll fs Store.empty)).map (fun r => r.name) =
      fs.map (fun p => p.1.name) ∧
    (listAllFiles (addAll fs Store.empty)).map (fun r => r.type) =
      fs.map (fun p => p.1.type) ∧
    (listAllFiles (addAll fs Store.empty)).map (fun r => r.size) =
      fs.map (fun p => p.1.size) ∧
    (listAllFiles (addAll fs Store.empty)).Pairwise (fun a b => a.id ≠ b.id) := by
  have hrec : listAllFiles (addAll fs Store.empty) =
      (List.enumFrom 1 fs).map (fun p => mkEntry p.1 p.2.1 p.2.2) := by
    show (addAll fs Store.empty).records = _
    rw [addAll_records]
    rfl
  refine ⟨?_, ?_, ?_, ?_, ?_⟩
  · rw [hrec, List.length_map, List.enumFrom_length]
  · rw [hrec, List.map_map]
    exact enumFrom_map_snd (fun q => q.1.name) 1 fs
  · rw [hrec, List.map_map]
    exact enumFrom_map_snd (fun q => q.1.type) 1 fs
  · rw [hrec, List.map_map]
    exact enumFrom_map_snd (fun q => q.1.size) 1 fs
  · rw [hrec, List.pairwise_map]
    exact (enumFrom_pairwise_fst 1 fs).imp fun h => Nat.ne_of_lt h

/-- C2: for a well-formed store containing a record with key `k`,
`deleteFileById(k)` removes exactly that record, leaving every other record
(and their order) unchanged, and a subsequent `getFileById(k)` is empty. -/
theorem deleteFileById_spec (s : Store) (k : Nat) (hwf : s.WF)
    (_hmem : ∃ r ∈ s.records, r.id = k) :
    listAllFiles (deleteFileById (.num k) s) =
      (listAllFiles s).filter (fun r => r.id != k) ∧
    getFileById (.num k) (deleteFileById (.num k) s) = none := by
  constructor
  · show s.records.eraseP (fun r => r.id == k) = s.records.filter (fun r => r.id != k)
    exact eraseP_eq_filter_of_sorted k s.records hwf
  · show (s.records.eraseP (fun r => r.id == k)).find? (fun r => r.id == k) = none
    rw [eraseP_eq_filter_of_sorted k s.records hwf, List.find?_eq_none]
    intro x hx
    have hne := (List.mem_filter.mp hx).2
    simp only [bne_iff_ne, ne_eq] at hne
    simp [hne]

/-- A concrete two-record store used to witness the store-level theorems. -/
def sampleStore : Store :=
  ⟨[mkEntry 1 ⟨"a.txt", "text/plain", 10⟩ 100,
    mkEntry 2 ⟨"b.bin", "application/gzip", 2048⟩ 200], 3⟩

theorem deleteFileById_spec_witness :
    listAllFiles (deleteFileById (.num 1) sampleStore) =
      (listAllFiles sampleStore).filter (fun r => r.id != 1) ∧
    getFileById (.num 1) (deleteFileById (.num 1) sampleStore) = none :=
  deleteFileById_spec sampleStore 1 (by decide) (by decide)

/-- C3: `clearAll()` followed by `listAllFiles()` returns an empty collection,
regardless of the prior store contents. -/
theorem clearAll_spec (s : Store) : listAllFiles (clearAll s) = [] := rfl

/-- C4: deleting an absent key is not an error and leaves the store unchanged
(`deleteFileById` resolves either way, which the total model reflects), and
deleting the same key twice gives the same state as deleting it once. -/
theorem deleteFileById_idempotent (s : Store) (k : Nat) (hwf : s.WF) :
    ((∀ r ∈ s.records, r.id ≠ k) → deleteFileById (.num k) s = s) ∧
    deleteFileById (.num k) (deleteFileById (.num k) s) = deleteFileById (.num k) s := by
  constructor
  · intro habs
    show Store.mk (s.records.eraseP (fun r => r.id == k)) s.nextId = s
    rw [List.eraseP_of_forall_not (fun a ha => by simp [habs a ha])]
  · show Store.mk ((s.records.eraseP (fun r => r.id == k)).eraseP (fun r => r.id == k))
        s.nextId = Store.mk (s.records.eraseP (fun r => r.id == k)) s.nextId
    rw [eraseP_eq_filter_of_sorted k s.records hwf]
    rw [List.eraseP_of_forall_not]
    intro a ha
    have hne := (List.mem_filter.mp ha).2
    simp only [bne_iff_ne, ne_eq] at hne
    simp [hne]

theorem deleteFileById_idempotent_witness :
    deleteFileById (.num 9) sampleStore = sampleStore ∧
    deleteFileById (.num 9) (deleteFileById (.num 9) sampleStore) =
      deleteFileById (.num 9) sampleStore :=
  ⟨(deleteFileById_idempotent sampleStore 9 (by decide)).1 (by decide),
   (deleteFileById_idempotent sampleStore 9 (by decide)).2⟩

/-! ### C5–C6 -/

instance : IsTotal FileRecord newerFirst :=
  ⟨fun a b => Nat.le_total b.added a.added⟩

instance : IsTrans FileRecord newerFirst :=
  ⟨fun _ _ _ hab hbc => Nat.le_trans hbc hab⟩

/-- C5: the renderer sorts the fetched records descending by `added` (the sorted
output is a permutation of the fetch, pairwise newest-first), and for three
records inserted with increasing timestamps t1 < t2 < t3 the rendered order is
newest first: [t3, t2, t1]. -/
theorem renderList_sorts_desc (st : Store) (f1 f2 f3 : File) (t1 t2 t3 : Nat)
    (h12 : t1 < t2) (h23 : t2 < t3) :
    (sortNewestFirst (listAllFiles st)).Pairwise newerFirst ∧
    List.Perm (sortNewestFirst (listAllFiles st)) (listAllFiles st) ∧
    renderList (addAll [(f1, t1), (f2, t2), (f3, t3)] Store.empty) =
      .rows [mkEntry 3 f3 t3, mkEntry 2 f2 t2, mkEntry 1 f1 t1] := by
  refine ⟨List.sorted_insertionSort newerFirst (listAllFiles st),
    List.perm_insertionSort newerFirst (listAllFiles st), ?_⟩
  have n23 : ¬ t3 ≤ t2 := Nat.not_le.mpr h23
  have n13 : ¬ t3 ≤ t1 := Nat.not_le.mpr (Nat.lt_trans h12 h23)
  have n12 : ¬ t2 ≤ t1 := Nat.not_le.mpr h12
  simp [renderList, listAllFiles, sortNewestFirst, addAll, addFileEntry, mkEntry,
    Store.empty, newerFirst, n23, n13, n12]

theorem renderList_sorts_desc_witness :
    renderList (addAll [(⟨"a", "t", 1⟩, 10), (⟨"b", "u", 2⟩, 20), (⟨"c", "v", 3⟩, 30)]
        Store.empty) =
      .rows [mkEntry 3 ⟨"c", "v", 3⟩ 30, mkEntry 2 ⟨"b", "u", 2⟩ 20,
        mkEntry 1 ⟨"a", "t", 1⟩ 10] :=
  (renderList_sorts_desc Store.empty ⟨"a", "t", 1⟩ ⟨"b", "u", 2⟩ ⟨"c", "v", 3⟩
    10 20 30 (by decide) (by decide)).2.2

/-- C6: `humanSize` renders plain bytes below 1024, kilobytes below 1024²,
megabytes below 1024³ and gigabytes above, the three scaled forms with one
decimal digit that is a nearest multiple of one tenth of the exact quotient
(distance at most 1/2 in tenths: the stated integer inequalities); in
particular `humanSize 10 = "10 B"` and `humanSize 2048 = "2.0 KB"`. -/
theorem humanSize_spec (n : Nat) :
    humanSize 10 = "10 B" ∧ humanSize 2048 = "2.0 KB" ∧
    (n < 1024 → humanSize n = toString n ++ " B") ∧
    (1024 ≤ n → n < 1024 ^ 2 →
      humanSize n = toString ((10 * n + 512) / 1024 / 10) ++ "." ++
          toString ((10 * n + 512) / 1024 % 10) ++ " KB" ∧
      10 * n ≤ 1024 * ((10 * n + 512) / 1024) + 512 ∧
      1024 * ((10 * n + 512) / 1024) ≤ 10 * n + 512) ∧
    (1024 ^ 2 ≤ n → n < 1024 ^ 3 →
      humanSize n = toString ((10 * n + 524288) / 1048576 / 10) ++ "." ++
          toString ((10 * n + 524288) / 1048576 % 10) ++ " MB" ∧
      10 * n ≤ 1048576 * ((10 * n + 524288) / 1048576) + 524288 ∧
      1048576 * ((10 * n + 524288) / 1048576) ≤ 10 * n + 524288) ∧
    (1024 ^ 3 ≤ n →
      humanSize n = toString ((10 * n + 536870912) / 1073741824 / 10) ++ "." ++
          toString ((10 * n + 536870912) / 1073741824 % 10) ++ " GB" ∧
      10 * n ≤ 1073741824 * ((10 * n + 536870912) / 1073741824) + 536870912 ∧
      1073741824 * ((10 * n + 536870912) / 1073741824) ≤ 10 * n + 536870912) := by
  refine ⟨by rfl, by rfl, ?_, ?_, ?_, ?_⟩
  · intro h
    simp [humanSize, h]
  · intro h1 h2
    have hp : (1024 : Nat) ^ 2 = 1024 * 1024 := by norm_num
    have hn1 : ¬ n < 1024 := Nat.not_lt.mpr h1
    have hn2 : n < 1024 * 1024 := hp ▸ h2
    refine ⟨?_, by omega, by omega⟩
    simp only [humanSize, toFixed1Pow2, if_neg hn1, if_pos hn2]
    norm_num
  · intro h1 h2
    have hp2 : (1024 : Nat) ^ 2 = 1024 * 1024 := by norm_num
    have hp3 : (1024 : Nat) ^ 3 = 1024 * 1024 * 1024 := by norm_num
    have hn1 : ¬ n < 1024 := by omega
    have hn2 : ¬ n < 1024 * 1024 := by rw [← hp2]; exact Nat.not_lt.mpr h1
    have hn3 : n < 1024 * 1024 * 1024 := hp3 ▸ h2
    refine ⟨?_, by omega, by omega⟩
    simp only [humanSize, toFixed1Pow2, if_neg hn1, if_neg hn2, if_pos hn3]
    norm_num
  · intro h1
    have hp3 : (1024 : Nat) ^ 3 = 1024 * 1024 * 1024 := by norm_num
    have hn1 : ¬ n < 1024 := by omega
    have hn2 : ¬ n < 1024 * 1024 := by omega
    have hn3 : ¬ n < 1024 * 1024 * 1024 := by rw [← hp3]; exact Nat.not_lt.mpr h1
    refine ⟨?_, by omega, by omega⟩
    simp only [humanSize, toFixed1Pow2, if_neg hn1, if_neg hn2, if_neg hn3]
    norm_num

theorem humanSize_spec_witness :
    humanSize 2048 = toString ((10 * 2048 + 512) / 1024 / 10) ++ "." ++
        toString ((10 * 2048 + 512) / 1024 % 10) ++ " KB" ∧
    10 * 2048 ≤ 1024 * ((10 * 2048 + 512) / 1024) + 512 ∧
    1024 * ((10 * 2048 + 512) / 1024) ≤ 10 * 2048 + 512 :=
  (humanSize_spec 2048).2.2.2.1 (by decide) (by decide)

/-! ### Helper lemmas about the upload loop -/

theorem uploadSeq_stops (oracle : Nat → Option String) (msg : String)
    (fs : List (File × Nat)) :
    ∀ (j i0 : Nat) (s : Store), j < fs.length →
      (∀ i, i < j → oracle (i0 + i) = none) → oracle (i0 + j) = some msg →
      uploadSeq oracle i0 fs s = (addAll (fs.take j) s, some msg, j + 1) := by
  induction fs with
  | nil => intro j i0 s hj _ _; simp at hj
  | cons f rest ih =>
    intro j i0 s hj hb hf
    match j with
    | 0 =>
      have h0 : oracle i0 = some msg := by simpa using hf
      simp [uploadSeq, h0, addAll]
    | Nat.succ j' =>
      have h0 : oracle i0 = none := by simpa using hb 0 (Nat.succ_pos j')
      have hrec := ih j' (i0 + 1) (addFileEntry f.1 f.2 s).2
        (Nat.lt_of_succ_lt_succ (by simpa using hj))
        (fun i hi => by
          have h := hb (i + 1) (Nat.succ_lt_succ hi)
          rw [show i0 + 1 + i = i0 + (i + 1) by omega]
          exact h)
        (by rw [show i0 + 1 + j' = i0 + (j' + 1) by omega]; exact hf)
      simp only [uploadSeq, h0]
      rw [hrec]
      simp [addAll]

theorem uploadSeq_ok (oracle : Nat → Option String) (fs : List (File × Nat)) :
    ∀ (i0 : Nat) (s : Store), (∀ i, i < fs.length → oracle (i0 + i) = none) →
      uploadSeq oracle i0 fs s = (addAll fs s, none, fs.length) := by
  induction fs with
  | nil => intro i0 s _; rfl
  | cons f rest ih =>
    intro i0 s hb
    have h0 : oracle i0 = none := by simpa using hb 0 (by simp)
    have hrec := ih (i0 + 1) (addFileEntry f.1 f.2 s).2 (fun i hi => by
      have h := hb (i + 1) (by simpa using Nat.succ_lt_succ hi)
      rw [show i0 + 1 + i = i0 + (i + 1) by omega]
      exact h)
    simp only [uploadSeq, h0]
    rw [hrec]
    simp [addAll]

/-! ### C7–C10 -/

/-- C7: if persisting the file at position j fails (files before it having
persisted fine), the upload handler stops there: the resulting store is the
prior store extended with exactly the first j files (already-persisted items
intact, nothing after the failure stored), and the one alert shown carries the
failure's message. -/
theorem upload_failure_aborts (oracle : Nat → Option String)
    (renderFail : Option String) (files : List (File × Nat)) (s : Store)
    (j : Nat) (msg : String) (hj : j < files.length)
    (hbefore : ∀ i, i < j → oracle i = none) (hfail : oracle j = some msg) :
    uploadBtnClick oracle renderFail files s =
      { store := addAll (files.take j) s,
        alerts := ["Upload failed: " ++ msg],
        btnWrites := [true, false], inputCleared := false, rendered := false } := by
  have hne : files.isEmpty = false := by
    cases files with
    | nil => simp at hj
    | cons f rest => rfl
  have hseq := uploadSeq_stops oracle msg files j 0 s hj
    (fun i hi => by rw [Nat.zero_add]; exact hbefore i hi)
    (by rw [Nat.zero_add]; exact hfail)
  simp [uploadBtnClick, hne, hseq]

/-- A concrete engine-failure oracle: the second `add` request rejects. -/
def failOracle : Nat → Option String :=
  fun i => if i = 1 then some "boom" else none

theorem upload_failure_aborts_witness :
    uploadBtnClick failOracle none
        [(⟨"a", "t", 1⟩, 10), (⟨"b", "u", 2⟩, 20), (⟨"c", "v", 3⟩, 30)]
        Store.empty =
      { store := addAll ([(⟨"a", "t", 1⟩, 10), (⟨"b", "u", 2⟩, 20),
            (⟨"c", "v", 3⟩, 30)].take 1) Store.empty,
        alerts := ["Upload failed: " ++ "boom"],
        btnWrites := [true, false], inputCleared := false, rendered := false } :=
  upload_failure_aborts failOracle none
    [(⟨"a", "t", 1⟩, 10), (⟨"b", "u", 2⟩, 20), (⟨"c", "v", 3⟩, 30)]
    Store.empty 1 "boom" (by decide) (by decide) (by decide)

/-- C8 counterexample: with a failing storage engine, the per-row Delete action
shows no alert at all — the claim that every storage failure is surfaced as a
user-visible alert containing the failure's message is false for this action
(the rejection is unhandled). -/
theorem delete_failure_shows_no_alert :
    (delBtnClick true (some "boom") 1 sampleStore).alerts = [] := rfl

/-- C8 (amended): an upload-path storage failure is surfaced as an alert
carrying the failure's message and no add request is retried (at most one per
selected file); storage failures in refresh, per-row delete and clear-all are
not surfaced as alerts (the rejection goes unhandled), the failing operation
having been issued exactly once and never retried. -/
theorem storage_failure_surfacing (oracle : Nat → Option String)
    (renderFail : Option String) (files : List (File × Nat)) (s : Store)
    (k j : Nat) (msg : String) (hj : j < files.length)
    (hbefore : ∀ i, i < j → oracle i = none) (hfail : oracle j = some msg) :
    (uploadBtnClick oracle renderFail files s).alerts = ["Upload failed: " ++ msg] ∧
    (uploadSeq oracle 0 files s).2.2 ≤ files.length ∧
    (refreshBtnClick (some msg) s).alerts = [] ∧
    (refreshBtnClick (some msg) s).attempts = 1 ∧
    (delBtnClick true (some msg) k s).alerts = [] ∧
    (delBtnClick true (some msg) k s).attempts = 1 ∧
    (clearAllBtnClick true (some msg) s).alerts = [] ∧
    (clearAllBtnClick true (some msg) s).attempts = 1 := by
  have hne : files.isEmpty = false := by
    cases files with
    | nil => simp at hj
    | cons f rest => rfl
  have hseq := uploadSeq_stops oracle msg files j 0 s hj
    (fun i hi => by rw [Nat.zero_add]; exact hbefore i hi)
    (by rw [Nat.zero_add]; exact hfail)
  refine ⟨?_, ?_, rfl, rfl, rfl, rfl, rfl, rfl⟩
  · simp [uploadBtnClick, hne, hseq]
  · rw [hseq]
    exact hj

theorem storage_failure_surfacing_witness :
    (uploadBtnClick failOracle none [(⟨"a", "t", 1⟩, 10), (⟨"b", "u", 2⟩, 20)]
        sampleStore).alerts = ["Upload failed: " ++ "boom"] ∧
    (uploadSeq failOracle 0 [(⟨"a", "t", 1⟩, 10), (⟨"b", "u", 2⟩, 20)]
        sampleStore).2.2 ≤
      ([(⟨"a", "t", 1⟩, 10), (⟨"b", "u", 2⟩, 20)] : List (File × Nat)).length ∧
    (refreshBtnClick (some "boom") sampleStore).alerts = [] ∧
    (refreshBtnClick (some "boom") sampleStore).attempts = 1 ∧
    (delBtnClick true (some "boom") 7 sampleStore).alerts = [] ∧
    (delBtnClick true (some "boom") 7 sampleStore).attempts = 1 ∧
    (clearAllBtnClick true (some "boom") sampleStore).alerts = [] ∧
    (clearAllBtnClick true (some "boom") sampleStore).attempts = 1 :=
  storage_failure_surfacing failOracle none
    [(⟨"a", "t", 1⟩, 10), (⟨"b", "u", 2⟩, 20)] sampleStore 7 1 "boom"
    (by decide) (by decide) (by decide)

/-- C9: the upload handler disables the invoking control on invocation and
re-enables it in every outcome (add failure, render failure, or success): when
a non-empty selection is processed, the button's disabled flag is written
`true` then `false`, so no run ends with it still disabled; an empty
selection returns before the button is touched. -/
theorem upload_button_reenabled (oracle : Nat → Option String)
    (renderFail : Option String) (files : List (File × Nat)) (s : Store) :
    (uploadBtnClick oracle renderFail files s).btnWrites.getLast? ≠ some true ∧
    (files ≠ [] →
      (uploadBtnClick oracle renderFail files s).btnWrites = [true, false]) ∧
    (files = [] → (uploadBtnClick oracle renderFail files s).btnWrites = []) := by
  cases files with
  | nil => simp [uploadBtnClick]
  | cons f rest =>
    rcases h : uploadSeq oracle 0 (f :: rest) s with ⟨s', res, a⟩
    cases res with
    | some m => simp [uploadBtnClick, h]
    | none =>
      cases renderFail with
      | some m => simp [uploadBtnClick, h]
      | none => simp [uploadBtnClick, h]

theorem upload_button_reenabled_witness :
    (uploadBtnClick failOracle none [(⟨"a", "t", 1⟩, 10), (⟨"b", "u", 2⟩, 20)]
        Store.empty).btnWrites = [true, false] :=
  (upload_button_reenabled failOracle none
    [(⟨"a", "t", 1⟩, 10), (⟨"b", "u", 2⟩, 20)] Store.empty).2.1 (by decide)

/-- C10: `getFileById` and `deleteFileById` coerce their id argument with
`Number(...)` before touching the store, so calling either with a string that
coerces to the integer k behaves identically to calling it with k itself. -/
theorem id_coercion (st : Store) (k : Nat) (idStr : String)
    (h : jsToNumber (.str idStr) = some k) :
    getFileById (.str idStr) st = getFileById (.num k) st ∧
    deleteFileById (.str idStr) st = deleteFileById (.num k) st := by
  have h' : jsStrToNumber idStr = some k := h
  constructor <;> simp [getFileById, deleteFileById, jsToNumber, h']

theorem id_coercion_witness :
    getFileById (.str "2") sampleStore = getFileById (.num 2) sampleStore ∧
    deleteFileById (.str "2") sampleStore = deleteFileById (.num 2) sampleStore :=
  id_coercion sampleStore 2 "2" (by decide)
